import Mathlib

/-!
# Verification of the financial-markets ETL pipeline

Shallow embedding of the pipeline's extractors, transformers and loader
(`src/scripts/`) together with proofs about them.

Conventions of the embedding:
* JSON/Python dict values are modelled by `PyVal`; a parsed JSON object is a
  `Dict` (association list keyed by strings, insertion-ordered like a Python
  dict).
* Python numbers (`int`/`float` collapsed) are modelled by `ℚ`; decimal-string
  parsing by `float()` / `pd.to_numeric` is modelled exactly on decimal
  literals (optional sign, digits, optional fractional part; no exponent,
  no surrounding whitespace, no `inf`/`nan`).
* Fallible Python code is modelled in `Except PyErr`; the exception classes
  that the sources mention in `except` clauses are the constructors of `PyErr`.
* The wall clock (`datetime.now()`) is modelled by an explicit `now : ℕ`
  parameter: one reading per transformer call.
* A pandas `DataFrame` is modelled as a list of typed rows; `df.empty` is
  emptiness of the list, `len(df)` its length.
-/

/-- Python exception classes that appear in the sources' `except` clauses
(plus `AttributeError`/`TypeError`, which can be raised by attribute access,
subscripting and numeric coercion but are not always caught). -/
inductive PyErr where
  | valueError
  | keyError
  | typeError
  | attributeError
deriving DecidableEq

/-- A parsed JSON / Python value: string, number (`int`/`float` as `ℚ`),
`None`, or a nested object. -/
inductive PyVal where
  | str (s : String)
  | num (q : ℚ)
  | none
  | dict (entries : List (String × PyVal))

/-- A parsed JSON object / Python dict: insertion-ordered association list. -/
abbrev Dict := List (String × PyVal)

/-- `d[k]` lookup returning the first binding of `k`, if any
(`dict.__contains__` / `dict.get` semantics on our association lists). -/
def dget (d : Dict) (k : String) : Option PyVal :=
  (d.find? (fun p => p.1 == k)).map (·.2)

/-- `d.get(k, default)`. -/
def dgetD (d : Dict) (k : String) (default : PyVal) : PyVal :=
  (dget d k).getD default

/-- `k in d`. -/
def dmem (d : Dict) (k : String) : Bool :=
  (dget d k).isSome

/-- Python truthiness of a value (`if data:`): `None`, `""`, `0` and `{}`
are falsy, everything else truthy. -/
def pyTruthy : PyVal → Bool
  | .str s => !(s == "")
  | .num q => !(q == 0)
  | .none => false
  | .dict d => !d.isEmpty

/-- `v[k]`: subscripting a value. `KeyError` on a dict without the key,
`TypeError` on a non-dict. -/
def pyIndex (v : PyVal) (k : String) : Except PyErr PyVal :=
  match v with
  | .dict d =>
    match dget d k with
    | some x => .ok x
    | Option.none => .error .keyError
  | _ => .error .typeError

/-- `v.get(k, default)`: `AttributeError` when `v` is not a dict. -/
def pyGet (v : PyVal) (k : String) (default : PyVal) : Except PyErr PyVal :=
  match v with
  | .dict d => .ok (dgetD d k default)
  | _ => .error .attributeError

/-- Python `str.upper()` (structurally recursive, character by character). -/
def pyUpperStr (s : String) : String :=
  String.mk (s.data.map Char.toUpper)

/-- Python `str.capitalize()`: first character upper-cased, the rest
lower-cased. -/
def pyCapitalizeStr (s : String) : String :=
  match s.data with
  | [] => ""
  | c :: cs => String.mk (Char.toUpper c :: cs.map Char.toLower)

/-- Left-to-right, non-overlapping replacement of `pat` by `rep` in a
character list, fuelled by the list length (each step consumes at least one
character when `pat` is non-empty). -/
def replaceFuel (pat rep : List Char) : ℕ → List Char → List Char
  | 0, cs => cs
  | _ + 1, [] => []
  | n + 1, c :: rest =>
    if pat.isPrefixOf (c :: rest) then
      rep ++ replaceFuel pat rep n (rest.drop (pat.length - 1))
    else c :: replaceFuel pat rep n rest

/-- Python `str.replace(pat, rep)` for a non-empty pattern (the sources only
replace `"%"`; the empty pattern, where Python would interleave `rep`, is
modelled as the identity). -/
def pyStrReplace (s pat rep : String) : String :=
  if pat.data.isEmpty then s
  else String.mk (replaceFuel pat.data rep.data s.data.length s.data)

/-- `v.upper()`: `AttributeError` when `v` is not a string. -/
def pyUpper (v : PyVal) : Except PyErr String :=
  match v with
  | .str s => .ok (pyUpperStr s)
  | _ => .error .attributeError

/-- `v.capitalize()`: `AttributeError` when `v` is not a string. -/
def pyCapitalize (v : PyVal) : Except PyErr String :=
  match v with
  | .str s => .ok (pyCapitalizeStr s)
  | _ => .error .attributeError

/-- `v.replace(a, b)` on strings; `AttributeError` when `v` is not a string. -/
def pyReplace (v : PyVal) (a b : String) : Except PyErr String :=
  match v with
  | .str s => .ok (pyStrReplace s a b)
  | _ => .error .attributeError

/-- Numeric value of a list of decimal digits. -/
def digitsVal (cs : List Char) : ℕ :=
  cs.foldl (fun a c => 10 * a + (c.toNat - 48)) 0

/-- Parse an unsigned decimal literal `digits [. digits]` with at least one
digit overall (so `"1."`, `".5"` parse; `"."`, `""`, `"1.2.3"` do not). -/
def parseUnsigned (cs : List Char) : Option ℚ :=
  let intPart := cs.takeWhile (·.isDigit)
  let rest := cs.dropWhile (·.isDigit)
  match rest with
  | [] => if intPart.isEmpty then Option.none else some (digitsVal intPart)
  | '.' :: frac =>
    if frac.all (·.isDigit) && (!intPart.isEmpty || !frac.isEmpty) then
      some ((digitsVal intPart : ℚ) + (digitsVal frac : ℚ) / (10 : ℚ) ^ frac.length)
    else Option.none
  | _ => Option.none

/-- Model of decimal-string parsing as performed by Python `float()` and by
`pd.to_numeric` on a string cell: optional sign then an unsigned decimal
literal. -/
def parseDecimal? (s : String) : Option ℚ :=
  match s.toList with
  | '-' :: rest => (parseUnsigned rest).map Neg.neg
  | '+' :: rest => parseUnsigned rest
  | cs => parseUnsigned cs

/-- Parse a Python `int()` string argument: optional sign then digits. -/
def parsePyInt? (s : String) : Option ℤ :=
  let core (cs : List Char) : Option ℤ :=
    if !cs.isEmpty && cs.all (·.isDigit) then some (digitsVal cs) else Option.none
  match s.toList with
  | '-' :: rest => (core rest).map Neg.neg
  | '+' :: rest => core rest
  | cs => core cs

/-- Python `float(v)`: identity on numbers, decimal parsing on strings
(`ValueError` on failure), `TypeError` on `None`/dicts. -/
def pyFloat (v : PyVal) : Except PyErr ℚ :=
  match v with
  | .num q => .ok q
  | .str s =>
    match parseDecimal? s with
    | some q => .ok q
    | Option.none => .error .valueError
  | _ => .error .typeError

/-- Python `int(v)`: truncation toward zero on numbers, integer-literal
parsing on strings (`ValueError` on failure), `TypeError` otherwise. -/
def pyInt (v : PyVal) : Except PyErr ℤ :=
  match v with
  | .num q => .ok (q.num.tdiv q.den)
  | .str s =>
    match parsePyInt? s with
    | some n => .ok n
    | Option.none => .error .valueError
  | _ => .error .typeError

example : parseDecimal? "1.23%" = Option.none := by decide
example : parseDecimal? "" = Option.none := by decide
example : parseDecimal? "." = Option.none := by decide
example : parseDecimal? "7" = some 7 := by decide
example : parseDecimal? "1.23" = some (123 / 100 : ℚ) := by
  have h : parseDecimal? "1.23"
      = some ((digitsVal ['1'] : ℚ) + (digitsVal ['2', '3'] : ℚ) / (10 : ℚ) ^ 2) := rfl
  have h1 : digitsVal ['1'] = 1 := by decide
  have h2 : digitsVal ['2', '3'] = 23 := by decide
  rw [h, h1, h2]
  norm_num

/-! ## Stocks transformer (`src/scripts/transformers/stocks_transformer.py`) -/

/-- A row of the stocks frame as first built inside the loop of
`StocksTransformer.transform`, before the data-quality pass:
`change_percent` is still the raw string with `%` signs removed. -/
structure StockRawRow where
  symbol : PyVal
  price : ℚ
  «open» : ℚ
  high : ℚ
  low : ℚ
  volume : ℤ
  latest_trading_day : PyVal
  previous_close : ℚ
  change : ℚ
  change_percent : String
  timestamp : ℕ
  extracted_at : ℕ

/-- A row of the final stocks frame (after the data-quality pass,
`change_percent` coerced to a number). -/
structure StockRow where
  symbol : PyVal
  price : ℚ
  «open» : ℚ
  high : ℚ
  low : ℚ
  volume : ℤ
  latest_trading_day : PyVal
  previous_close : ℚ
  change : ℚ
  change_percent : ℚ
  timestamp : ℕ
  extracted_at : ℕ

namespace StocksTransformer

/-- The body of the `try` block of `StocksTransformer.transform`: build one
row dict from `symbol` and the quote, field by field in source order.
`quote.get(...)` raises `AttributeError` on a non-dict quote; the numeric
coercions raise `ValueError`/`TypeError`. -/
def tryBody (now : ℕ) (symbol : PyVal) (quote : PyVal) : Except PyErr StockRawRow := do
  let price ← pyFloat (← pyGet quote "05. price" (.num 0))
  let openPx ← pyFloat (← pyGet quote "02. open" (.num 0))
  let high ← pyFloat (← pyGet quote "03. high" (.num 0))
  let low ← pyFloat (← pyGet quote "04. low" (.num 0))
  let volume ← pyInt (← pyGet quote "06. volume" (.num 0))
  let ltd ← pyGet quote "07. latest trading day" .none
  let prevClose ← pyFloat (← pyGet quote "08. previous close" (.num 0))
  let change ← pyFloat (← pyGet quote "09. change" (.num 0))
  let cp ← pyReplace (← pyGet quote "10. change percent" (.str "")) "%" ""
  .ok { symbol := symbol, price := price, «open» := openPx, high := high, low := low,
        volume := volume, latest_trading_day := ltd, previous_close := prevClose,
        change := change, change_percent := cp, timestamp := now, extracted_at := now }

/-- `except (ValueError, KeyError)`: the exception classes caught by the
per-record handler in `StocksTransformer.transform`. -/
def caughtS (e : PyErr) : Bool :=
  e == .valueError || e == .keyError

/-- The `for stock in stocks_data` loop. `stock['symbol']` and
`stock['data']` are read outside the `try`, so their failures always
propagate; inside the `try`, `ValueError`/`KeyError` skip the record
(`continue`) and any other exception propagates. -/
def loop (now : ℕ) : List Dict → Except PyErr (List StockRawRow)
  | [] => .ok []
  | stock :: rest => do
    let symbol ← pyIndex (.dict stock) "symbol"
    let data ← pyIndex (.dict stock) "data"
    match tryBody now symbol data with
    | .ok row => do
      let rows ← loop now rest
      .ok (row :: rows)
    | .error e => if caughtS e then loop now rest else .error e

/-- Is a cell non-null for the purposes of pandas `dropna`? -/
def notNA : PyVal → Bool
  | .none => false
  | _ => true

/-- The data-quality pass of `StocksTransformer.transform`:
`dropna(subset=['symbol', 'price'])` (`price` is already a number, so only
`symbol` can be null), then
`pd.to_numeric(df['change_percent'], errors='coerce').fillna(0)`.
The `astype` calls and `fillna` on `volume` are no-ops here. -/
def quality (rows : List StockRawRow) : List StockRow :=
  (rows.filter (fun r => notNA r.symbol)).map fun r =>
    { symbol := r.symbol, price := r.price, «open» := r.«open», high := r.high,
      low := r.low, volume := r.volume, latest_trading_day := r.latest_trading_day,
      previous_close := r.previous_close, change := r.change,
      change_percent := (parseDecimal? r.change_percent).getD 0,
      timestamp := r.timestamp, extracted_at := r.extracted_at }

/-- `StocksTransformer.transform`: loop over the records, then (unless the
frame is empty) the data-quality pass. -/
def transform (now : ℕ) (stocks_data : List Dict) : Except PyErr (List StockRow) := do
  let all_stocks ← loop now stocks_data
  if all_stocks.isEmpty then .ok [] else .ok (quality all_stocks)

/-- `StocksTransformer.transform` applied to a possibly-null argument:
`for stock in stocks_data` over `None` raises `TypeError` — unlike the
crypto and forex transformers, there is no null guard here. -/
def transformOpt (now : ℕ) : Option (List Dict) → Except PyErr (List StockRow)
  | Option.none => .error .typeError
  | some xs => transform now xs

end StocksTransformer

/-! ## Crypto transformer (`src/scripts/transformers/crypto_transformer.py`) -/

/-- A row of the crypto frame. `symbol` is a `String` (result of `.upper()`)
and `current_price` a number (result of `float()`); `name` can be null. -/
structure CryptoRow where
  symbol : String
  name : PyVal
  current_price : ℚ
  market_cap : ℚ
  total_volume : ℚ
  price_change_24h : ℚ
  timestamp : ℕ
  extracted_at : ℕ

namespace CryptoTransformer

/-- The detailed branch (`'market_data' in crypto`) of the row dict,
fields in source order. `.upper()` on a non-string symbol raises
`AttributeError` (not caught below); subscripting `market_data` raises
`KeyError`/`TypeError` (caught). -/
def detailedRow (now : ℕ) (crypto : Dict) : Except PyErr CryptoRow := do
  let symbol ← pyUpper (dgetD crypto "symbol" (.str ""))
  let name := dgetD crypto "name" .none
  let md ← pyIndex (.dict crypto) "market_data"
  let cp ← pyFloat (← pyGet (← pyIndex md "current_price") "usd" (.num 0))
  let mc ← pyFloat (← pyGet (← pyIndex md "market_cap") "usd" (.num 0))
  let tv ← pyFloat (← pyGet (← pyIndex md "total_volume") "usd" (.num 0))
  let pc ← pyFloat (← pyGet md "price_change_percentage_24h" (.num 0))
  .ok { symbol := symbol, name := name, current_price := cp, market_cap := mc,
        total_volume := tv, price_change_24h := pc, timestamp := now, extracted_at := now }

/-- The simple branch (no `market_data` key): `coin_id = crypto.get('id', '')`,
`data = crypto.get('data', crypto)`, then the row dict in source order.
Each `data.get(...)` chain falls back from the simple-price key to the
markets-endpoint key to `0`. -/
def simpleRow (now : ℕ) (crypto : Dict) : Except PyErr CryptoRow := do
  let coin_id := dgetD crypto "id" (.str "")
  let dataV := dgetD crypto "data" (.dict crypto)
  let symbol ← pyUpper (dgetD crypto "symbol" coin_id)
  let cap ← pyCapitalize coin_id
  let name := dgetD crypto "name" (.str cap)
  let cp ← pyFloat (← pyGet dataV "usd" (← pyGet dataV "current_price" (.num 0)))
  let mc ← pyFloat (← pyGet dataV "usd_market_cap" (← pyGet dataV "market_cap" (.num 0)))
  let tv ← pyFloat (← pyGet dataV "usd_24h_vol" (← pyGet dataV "total_volume" (.num 0)))
  let pc ← pyFloat (← pyGet dataV "usd_24h_change" (← pyGet dataV "price_change_percentage_24h" (.num 0)))
  .ok { symbol := symbol, name := name, current_price := cp, market_cap := mc,
        total_volume := tv, price_change_24h := pc, timestamp := now, extracted_at := now }

/-- `except (ValueError, KeyError, TypeError)`: the classes caught by the
per-record handler in `CryptoTransformer.transform`. -/
def caughtC (e : PyErr) : Bool :=
  e == .valueError || e == .keyError || e == .typeError

/-- The `for crypto in crypto_data` loop with its shape dispatch on the
`market_data` key; caught exceptions skip the record, others propagate. -/
def loop (now : ℕ) : List Dict → Except PyErr (List CryptoRow)
  | [] => .ok []
  | crypto :: rest =>
    match (if dmem crypto "market_data" then detailedRow now crypto else simpleRow now crypto) with
    | .ok row => do
      let rows ← loop now rest
      .ok (row :: rows)
    | .error e => if caughtC e then loop now rest else .error e

/-- The data-quality pass of `CryptoTransformer.transform`:
`dropna(subset=['symbol', 'current_price'])` cannot drop a row because
`symbol` is the non-null result of `.upper()` and `current_price` the
non-null result of `float()`; the `astype`/`fillna` calls are no-ops in
this representation. -/
def quality (rows : List CryptoRow) : List CryptoRow := rows

/-- `CryptoTransformer.transform`: the `if not crypto_data` guard returns an
empty frame on `None` or `[]`; otherwise the loop, then (unless empty) the
data-quality pass. -/
def transform (now : ℕ) (crypto_data : Option (List Dict)) : Except PyErr (List CryptoRow) :=
  match crypto_data with
  | Option.none => .ok []
  | some [] => .ok []
  | some cs => do
    let all_crypto ← loop now cs
    if all_crypto.isEmpty then .ok [] else .ok (quality all_crypto)

end CryptoTransformer

/-! ## Forex transformer (`src/scripts/transformers/forex_transformer.py`) -/

/-- A row of the forex frame. `target_currency` is a `String` (a dict key)
and `exchange_rate` a number (result of `float()`); `base_currency` and
`rate_date` come straight from the payload. -/
structure ForexRow where
  base_currency : PyVal
  target_currency : String
  exchange_rate : ℚ
  rate_date : PyVal
  timestamp : ℕ
  extracted_at : ℕ

namespace ForexTransformer

/-- One iteration of `for target_currency, exchange_rate in rates.items()`:
`float` failures (`ValueError`/`TypeError`) are caught and skip the entry,
and `float` raises nothing else, so the iteration never propagates. -/
def rateRow (now : ℕ) (base rate_date : PyVal) (entry : String × PyVal) : Option ForexRow :=
  match pyFloat entry.2 with
  | .ok q => some { base_currency := base, target_currency := entry.1,
                    exchange_rate := q, rate_date := rate_date,
                    timestamp := now, extracted_at := now }
  | .error _ => Option.none

/-- The data-quality pass of `ForexTransformer.transform`:
`dropna(subset=['base_currency', 'target_currency', 'exchange_rate'])` —
only `base_currency` can be null here. -/
def quality (rows : List ForexRow) : List ForexRow :=
  rows.filter (fun r => StocksTransformer.notNA r.base_currency)

/-- `ForexTransformer.transform`: guard `if not forex_data or 'rates' not in
forex_data`, then `forex_data['base']`, `forex_data['rates']`,
`forex_data.get('date')`, the rate loop (`.items()` on a non-dict `rates`
value raises `AttributeError`), and the data-quality pass. -/
def transform (now : ℕ) (forex_data : Option Dict) : Except PyErr (List ForexRow) :=
  match forex_data with
  | Option.none => .ok []
  | some d =>
    if !pyTruthy (.dict d) || !dmem d "rates" then .ok []
    else do
      let base ← pyIndex (.dict d) "base"
      let ratesV ← pyIndex (.dict d) "rates"
      let rate_date := dgetD d "date" .none
      let rates ← (match ratesV with
        | .dict rs => Except.ok rs
        | _ => Except.error PyErr.attributeError)
      let all_rates := rates.filterMap (rateRow now base rate_date)
      if all_rates.isEmpty then .ok [] else .ok (quality all_rates)

end ForexTransformer

/-! ## Stocks extractor (`src/scripts/extractors/stocks_extractor.py`)

The HTTP layer (`BaseExtractor.get`, not part of the extractor sources) is
modelled by an oracle `get : String → Option Dict` passed in as a parameter:
per the fetch-client contract it returns the parsed JSON body or `none` as
the failure signal and never raises.  For the stocks extractor the oracle
argument is the requested symbol (the only varying query parameter). -/

/-- The payload `{'symbol': symbol, 'data': quote}` returned by
`StocksExtractor.extract_stock_price` for one symbol. -/
structure StockPayload where
  symbol : String
  data : PyVal

/-- An observable external event of `extract_multiple_stocks`: one HTTP
fetch for a symbol, or one `time.sleep(duration)` pause. -/
inductive TraceEv where
  | fetch (symbol : String)
  | sleep (duration : ℕ)

/-- Is the event a fetch? -/
def TraceEv.isFetch : TraceEv → Bool
  | .fetch _ => true
  | .sleep _ => false

/-- The symbol of a fetch event, `none` for a sleep. -/
def TraceEv.fetchSym : TraceEv → Option String
  | .fetch s => some s
  | .sleep _ => Option.none

namespace StocksExtractor

/-- `StocksExtractor.extract_stock_price`: one GET, then
`if data and 'Global Quote' in data:`; a truthy (non-empty) quote yields
`{'symbol': symbol, 'data': quote}`, an empty quote or missing key yields
`None`. -/
def extract_stock_price (get : String → Option Dict) (symbol : String) :
    Option StockPayload :=
  match get symbol with
  | Option.none => Option.none
  | some data =>
    if pyTruthy (.dict data) then
      match dget data "Global Quote" with
      | some quote =>
        if pyTruthy quote then some { symbol := symbol, data := quote }
        else Option.none
      | Option.none => Option.none
    else Option.none

/-- `StocksExtractor.extract_multiple_stocks` (source default `delay = 12`):
for each symbol in order, call `extract_stock_price` (one fetch), keep the
result if any, and `time.sleep(delay)` after every call except the one for
the last symbol (`if i < len(symbols) - 1`).  Returns the collected results
together with the trace of fetches and sleeps. -/
def extract_multiple_stocks (get : String → Option Dict) (symbols : List String)
    (delay : ℕ) : List StockPayload × List TraceEv :=
  match symbols with
  | [] => ([], [])
  | [s] =>
    (match extract_stock_price get s with
     | some d => [d]
     | Option.none => [], [.fetch s])
  | s :: rest =>
    let hd : List StockPayload :=
      match extract_stock_price get s with
      | some d => [d]
      | Option.none => []
    let (rs, tr) := extract_multiple_stocks get rest delay
    (hd ++ rs, .fetch s :: .sleep delay :: tr)

end StocksExtractor

/-! ## Forex extractor (`src/scripts/extractors/forex_extractor.py`)

The HTTP layer is again an oracle `get : String → Option Dict`; its argument
is the endpoint, which for this provider is the base-currency code. -/

/-- The dictionary `{'base': ..., 'date': ..., 'rates': {...}}` built by
`ForexExtractor.extract_exchange_rates`. -/
structure FilteredRates where
  base : String
  date : PyVal
  rates : List (String × PyVal)

namespace ForexExtractor

/-- Python-dict insertion for the comprehension: overwrite an existing key in
place, append a new key at the end. -/
def dictUpsert (d : List (String × PyVal)) (k : String) (v : PyVal) :
    List (String × PyVal) :=
  if (d.find? (fun p => p.1 == k)).isSome then
    d.map (fun p => if p.1 == k then (k, v) else p)
  else d ++ [(k, v)]

/-- The comprehension
`{currency: data['rates'].get(currency) for currency in target_currencies if currency in data['rates']}`. -/
def dictComp (target_currencies : List String) (rates : Dict) :
    List (String × PyVal) :=
  target_currencies.foldl
    (fun acc currency =>
      match dget rates currency with
      | some v => dictUpsert acc currency v
      | Option.none => acc)
    []

/-- `ForexExtractor.extract_exchange_rates`: one GET for the base currency;
`if data and 'rates' in data:` filters the rate table down to the requested
target currencies (absent targets silently skipped), else returns `None`.
A non-dict `rates` value would make the comprehension's membership test
raise; that corner (Python would substring-test a string value) is modelled
as `TypeError`. -/
def extract_exchange_rates (get : String → Option Dict) (base_currency : String)
    (target_currencies : List String) : Except PyErr (Option FilteredRates) :=
  match get base_currency with
  | Option.none => .ok Option.none
  | some data =>
    if pyTruthy (.dict data) && dmem data "rates" then
      match dget data "rates" with
      | some (.dict rates) =>
        .ok (some { base := base_currency, date := dgetD data "date" .none,
                    rates := dictComp target_currencies rates })
      | _ => .error .typeError
    else .ok Option.none

end ForexExtractor

/-! ## Loader (`src/scripts/loaders/data_loader.py`)

The relational store behind `DataFrame.to_sql` is modelled as three lists of
rows (the three tables), and the write itself by an oracle
`to_sql : frame → store → Except PyErr store`, so that both a successful
append and a raising write can be expressed.  The loader methods never call
the oracle on an empty frame. -/

/-- The three tables of the store. -/
structure Store where
  stocks : List StockRow
  crypto : List CryptoRow
  forex : List ForexRow

namespace DataLoader

/-- `DataLoader.load_stocks`: empty frame → warn and return `0` without
touching the store; otherwise `df.to_sql('stocks', ..., if_exists='append')`
— on success return `len(df)`, on failure log and re-`raise`. -/
def load_stocks (to_sql : List StockRow → Store → Except PyErr Store)
    (df : List StockRow) (st : Store) : Except PyErr ℕ × Store :=
  if df.isEmpty then (.ok 0, st)
  else
    match to_sql df st with
    | .ok st2 => (.ok df.length, st2)
    | .error e => (.error e, st)

/-- `DataLoader.load_crypto`: same shape as `load_stocks`, writing to the
`crypto` table. -/
def load_crypto (to_sql : List CryptoRow → Store → Except PyErr Store)
    (df : List CryptoRow) (st : Store) : Except PyErr ℕ × Store :=
  if df.isEmpty then (.ok 0, st)
  else
    match to_sql df st with
    | .ok st2 => (.ok df.length, st2)
    | .error e => (.error e, st)

/-- `DataLoader.load_forex`: same shape as `load_stocks`, writing to the
`forex` table. -/
def load_forex (to_sql : List ForexRow → Store → Except PyErr Store)
    (df : List ForexRow) (st : Store) : Except PyErr ℕ × Store :=
  if df.isEmpty then (.ok 0, st)
  else
    match to_sql df st with
    | .ok st2 => (.ok df.length, st2)
    | .error e => (.error e, st)

/-- The successful behaviour of `to_sql(..., if_exists='append')` on the
stocks table. -/
def appendStocks (df : List StockRow) (st : Store) : Except PyErr Store :=
  .ok { st with stocks := st.stocks ++ df }

/-- The successful behaviour of `to_sql(..., if_exists='append')` on the
crypto table. -/
def appendCrypto (df : List CryptoRow) (st : Store) : Except PyErr Store :=
  .ok { st with crypto := st.crypto ++ df }

/-- The successful behaviour of `to_sql(..., if_exists='append')` on the
forex table. -/
def appendForex (df : List ForexRow) (st : Store) : Except PyErr Store :=
  .ok { st with forex := st.forex ++ df }

end DataLoader

/-! ## Auxiliary definitions for the statements -/

/-- The source string that `CryptoTransformer.transform` upper-cases into a
row's symbol: the record's `symbol` value when the key is present, with the
empty string as fallback in the detailed branch and the coin id as fallback
in the simple branch; `none` when that value is not a string (the transform
then raises `AttributeError`). -/
def CryptoTransformer.sourceSymbol (crypto : Dict) : Option String :=
  match (if dmem crypto "market_data" then dgetD crypto "symbol" (.str "")
         else dgetD crypto "symbol" (dgetD crypto "id" (.str ""))) with
  | .str s => some s
  | _ => Option.none

/-- Overwrite the clock-dependent fields of a raw stocks row. -/
def StockRawRow.retime (t : ℕ) (r : StockRawRow) : StockRawRow :=
  { r with timestamp := t, extracted_at := t }

/-- Overwrite the clock-dependent fields of a stocks row (`retime 0` erases
them, leaving the clock-independent data). -/
def StockRow.retime (t : ℕ) (r : StockRow) : StockRow :=
  { r with timestamp := t, extracted_at := t }

/-- Overwrite the clock-dependent fields of a crypto row. -/
def CryptoRow.retime (t : ℕ) (r : CryptoRow) : CryptoRow :=
  { r with timestamp := t, extracted_at := t }

/-- Overwrite the clock-dependent fields of a forex row. -/
def ForexRow.retime (t : ℕ) (r : ForexRow) : ForexRow :=
  { r with timestamp := t, extracted_at := t }

/-! ## Properties -/

/-- C1 (counterexample): the claim says every transformer maps a null input
to an empty frame and never raises, but `StocksTransformer.transform` has no
null guard: iterating `for stock in stocks_data` over `None` raises
`TypeError`. -/
theorem stocks_transform_null_raises :
    StocksTransformer.transformOpt 0 Option.none = .error .typeError := rfl

/-- C1 (amended): feeding an empty input to any of the three transformers,
or a null input to the crypto or forex transformer, yields an empty output
frame and no error; a null input to the stocks transformer raises
`TypeError`. -/
theorem transformers_empty_input (now : ℕ) :
    StocksTransformer.transform now [] = .ok []
    ∧ StocksTransformer.transformOpt now (some []) = .ok []
    ∧ CryptoTransformer.transform now Option.none = .ok []
    ∧ CryptoTransformer.transform now (some []) = .ok []
    ∧ ForexTransformer.transform now Option.none = .ok []
    ∧ ForexTransformer.transform now (some []) = .ok []
    ∧ StocksTransformer.transformOpt now Option.none = .error .typeError :=
  ⟨rfl, rfl, rfl, rfl, rfl, rfl, rfl⟩

/-- C2 (counterexample): the claim says a crypto record whose current price
is absent under every recognized key variant is dropped from the output
frame; in fact the `data.get('usd', data.get('current_price', 0))` chain
defaults the price to `0`, the row is built, and the
`dropna(subset=['symbol', 'current_price'])` pass cannot remove it (a float
`0.0` is not null) — the record `{'symbol': 'btc'}` yields one retained row
with `current_price = 0`. -/
theorem crypto_missing_price_not_dropped :
    CryptoTransformer.transform 0 (some [[("symbol", PyVal.str "btc")]]) =
      .ok [{ symbol := "BTC", name := PyVal.str "", current_price := 0,
             market_cap := 0, total_volume := 0, price_change_24h := 0,
             timestamp := 0, extracted_at := 0 }] := rfl

/-- C2 (amended): a crypto record whose current price is absent under all
recognized key variants (`'usd'`, `'current_price'`, and the `'market_data'`
nested form — so the record takes the simple branch and a `'data'` payload
is also absent) is retained with `current_price` defaulted to `0`, not
dropped: any row the simple branch produces for such a record carries price
`0`, and a symbol-only record transforms to exactly one such row. -/
theorem crypto_missing_price_defaulted :
    (∀ (now : ℕ) (c : Dict) (r : CryptoRow),
      dget c "usd" = Option.none →
      dget c "current_price" = Option.none →
      dget c "data" = Option.none →
      CryptoTransformer.simpleRow now c = .ok r → r.current_price = 0)
    ∧ ∀ (sym : String) (now : ℕ),
        CryptoTransformer.transform now (some [[("symbol", PyVal.str sym)]]) =
          .ok [{ symbol := pyUpperStr sym, name := PyVal.str "",
                 current_price := 0, market_cap := 0, total_volume := 0,
                 price_change_24h := 0, timestamp := now, extracted_at := now }] := by
  constructor
  · intro now c r hu hc hd h
    simp only [CryptoTransformer.simpleRow, bind, Except.bind, pyGet, dgetD, hu, hc, hd,
      Option.getD, pyFloat] at h
    repeat' split at h
    all_goals cases h
    all_goals rfl
  · intro sym now
    rfl

/-- C2 (witness): the general part of `crypto_missing_price_defaulted`
applied to the concrete record `{'symbol': 'btc'}`. -/
theorem crypto_missing_price_defaulted_witness :
    ({ symbol := "BTC", name := PyVal.str "", current_price := 0, market_cap := 0,
       total_volume := 0, price_change_24h := 0, timestamp := 0,
       extracted_at := 0 } : CryptoRow).current_price = 0 :=
  crypto_missing_price_defaulted.1 0 [("symbol", PyVal.str "btc")] _ rfl rfl rfl rfl

/-- C3 (confirmed): for a stock record, the `'10. change percent'` value has
its `%` signs stripped and is then numerically coerced with unparsable
values mapped to `0`: the output row's `change_percent` is
`(parseDecimal? (v.replace "%" "")).getD 0`; in particular `"1.23%"` gives
`1.23 = 123/100` and the unparsable `"abc"` gives `0`. -/
theorem stocks_change_percent_normalization (sym v : String) (now : ℕ) :
    StocksTransformer.transform now
        [[("symbol", PyVal.str sym),
          ("data", PyVal.dict [("10. change percent", PyVal.str v)])]] =
      .ok [{ symbol := PyVal.str sym, price := 0, «open» := 0, high := 0, low := 0,
             volume := 0, latest_trading_day := PyVal.none, previous_close := 0,
             change := 0,
             change_percent := (parseDecimal? (pyStrReplace v "%" "")).getD 0,
             timestamp := now, extracted_at := now }]
    ∧ parseDecimal? (pyStrReplace "1.23%" "%" "") = some (123 / 100 : ℚ)
    ∧ parseDecimal? (pyStrReplace "abc" "%" "") = Option.none := by
  refine ⟨rfl, ?_, by decide⟩
  have hr : pyStrReplace "1.23%" "%" "" = "1.23" := by decide
  have h : parseDecimal? "1.23"
      = some ((digitsVal ['1'] : ℚ) + (digitsVal ['2', '3'] : ℚ) / (10 : ℚ) ^ 2) := rfl
  have h1 : digitsVal ['1'] = 1 := by decide
  have h2 : digitsVal ['2', '3'] = 23 := by decide
  rw [hr, h, h1, h2]
  norm_num

/-- C7 (confirmed): loading an empty frame returns count `0`, leaves the
store untouched (the write oracle is never invoked — the result is the same
for every oracle, including always-failing ones), and raises no error. -/
theorem load_empty_frame_is_noop
    (toS : List StockRow → Store → Except PyErr Store)
    (toC : List CryptoRow → Store → Except PyErr Store)
    (toF : List ForexRow → Store → Except PyErr Store) (st : Store) :
    DataLoader.load_stocks toS [] st = (.ok 0, st)
    ∧ DataLoader.load_crypto toC [] st = (.ok 0, st)
    ∧ DataLoader.load_forex toF [] st = (.ok 0, st) :=
  ⟨rfl, rfl, rfl⟩

/-- C6 (confirmed): for a non-empty frame, each loader re-raises a failing
write to the caller unchanged, and on a successful write returns the number
of records of the input frame (with the store updated to the write's
result). -/
theorem load_nonempty_write_result
    (toS : List StockRow → Store → Except PyErr Store) (dfS : List StockRow)
    (toC : List CryptoRow → Store → Except PyErr Store) (dfC : List CryptoRow)
    (toF : List ForexRow → Store → Except PyErr Store) (dfF : List ForexRow)
    (st : Store) :
    (dfS ≠ [] →
      (∀ e, toS dfS st = .error e → (DataLoader.load_stocks toS dfS st).1 = .error e)
      ∧ ∀ st2, toS dfS st = .ok st2 →
          DataLoader.load_stocks toS dfS st = (.ok dfS.length, st2))
    ∧ (dfC ≠ [] →
      (∀ e, toC dfC st = .error e → (DataLoader.load_crypto toC dfC st).1 = .error e)
      ∧ ∀ st2, toC dfC st = .ok st2 →
          DataLoader.load_crypto toC dfC st = (.ok dfC.length, st2))
    ∧ (dfF ≠ [] →
      (∀ e, toF dfF st = .error e → (DataLoader.load_forex toF dfF st).1 = .error e)
      ∧ ∀ st2, toF dfF st = .ok st2 →
          DataLoader.load_forex toF dfF st = (.ok dfF.length, st2)) := by
  refine ⟨fun hne => ⟨fun e he => ?_, fun st2 hok => ?_⟩,
          fun hne => ⟨fun e he => ?_, fun st2 hok => ?_⟩,
          fun hne => ⟨fun e he => ?_, fun st2 hok => ?_⟩⟩
  all_goals
    first
    | (cases dfS with
       | nil => exact absurd rfl hne
       | cons a l => simp [DataLoader.load_stocks, he])
    | (cases dfS with
       | nil => exact absurd rfl hne
       | cons a l => simp [DataLoader.load_stocks, hok])
    | (cases dfC with
       | nil => exact absurd rfl hne
       | cons a l => simp [DataLoader.load_crypto, he])
    | (cases dfC with
       | nil => exact absurd rfl hne
       | cons a l => simp [DataLoader.load_crypto, hok])
    | (cases dfF with
       | nil => exact absurd rfl hne
       | cons a l => simp [DataLoader.load_forex, he])
    | (cases dfF with
       | nil => exact absurd rfl hne
       | cons a l => simp [DataLoader.load_forex, hok])

/-- C6 (witness): `load_nonempty_write_result` applied to singleton frames
with a failing stocks write, an appending crypto write, and an appending
forex write. -/
theorem load_nonempty_write_result_witness :
    (DataLoader.load_stocks (fun _ _ => .error .valueError)
        [{ symbol := PyVal.str "A", price := 1, «open» := 1, high := 1, low := 1,
           volume := 1, latest_trading_day := PyVal.none, previous_close := 1,
           change := 1, change_percent := 1, timestamp := 0, extracted_at := 0 }]
        { stocks := [], crypto := [], forex := [] }).1 = .error .valueError
    ∧ DataLoader.load_crypto DataLoader.appendCrypto
        [{ symbol := "BTC", name := PyVal.none, current_price := 2, market_cap := 0,
           total_volume := 0, price_change_24h := 0, timestamp := 0, extracted_at := 0 }]
        { stocks := [], crypto := [], forex := [] } =
      (.ok 1, { stocks := [], forex := [],
                crypto := [{ symbol := "BTC", name := PyVal.none, current_price := 2,
                             market_cap := 0, total_volume := 0, price_change_24h := 0,
                             timestamp := 0, extracted_at := 0 }] })
    ∧ DataLoader.load_forex DataLoader.appendForex
        [{ base_currency := PyVal.str "USD", target_currency := "EUR", exchange_rate := 1,
           rate_date := PyVal.none, timestamp := 0, extracted_at := 0 }]
        { stocks := [], crypto := [], forex := [] } =
      (.ok 1, { stocks := [], crypto := [],
                forex := [{ base_currency := PyVal.str "USD", target_currency := "EUR",
                            exchange_rate := 1, rate_date := PyVal.none, timestamp := 0,
                            extracted_at := 0 }] }) := by
  refine ⟨?_, ?_, ?_⟩
  · exact ((load_nonempty_write_result (fun _ _ => .error .valueError) _
      (fun _ st => .ok st) [] (fun _ st => .ok st) []
      { stocks := [], crypto := [], forex := [] }).1
      (by simp)).1 .valueError rfl
  · exact ((load_nonempty_write_result (fun _ st => .ok st) []
      DataLoader.appendCrypto _ (fun _ st => .ok st) []
      { stocks := [], crypto := [], forex := [] }).2.1
      (by simp)).2 _ rfl
  · exact ((load_nonempty_write_result (fun _ st => .ok st) []
      (fun _ st => .ok st) [] DataLoader.appendForex _
      { stocks := [], crypto := [], forex := [] }).2.2
      (by simp)).2 _ rfl

/-- Lookup in a consed association list. -/
theorem dget_cons (a : String) (b : PyVal) (d : List (String × PyVal)) (c : String) :
    dget ((a, b) :: d) c = if a = c then some b else dget d c := by
  by_cases h : a = c <;> simp [dget, List.find?_cons, h]

/-- Membership in a consed association list. -/
theorem dmem_cons (a : String) (b : PyVal) (d : List (String × PyVal)) (c : String) :
    dmem ((a, b) :: d) c = (a == c || dmem d c) := by
  by_cases h : a = c <;> simp [dmem, dget_cons, h]

/-- Lookup after the overwrite branch of `dictUpsert`. -/
theorem dget_upsert_map (d : List (String × PyVal)) (k : String) (v : PyVal) (c : String) :
    dget (d.map (fun p => if p.1 == k then (k, v) else p)) c =
      if c = k then (if dmem d k then some v else Option.none) else dget d c := by
  induction d with
  | nil => by_cases hck : c = k <;> simp [dget, dmem, hck]
  | cons p d ih =>
    obtain ⟨a, b⟩ := p
    by_cases hak : a = k <;> by_cases hck : c = k <;>
      by_cases hac : a = c <;>
      simp_all [List.map_cons, dget_cons, dmem_cons]

/-- Lookup after the append branch of `dictUpsert`. -/
theorem dget_append_single (d : List (String × PyVal)) (k : String) (v : PyVal) (c : String) :
    dget (d ++ [(k, v)]) c =
      match dget d c with
      | some x => some x
      | Option.none => if c = k then some v else Option.none := by
  induction d with
  | nil =>
    by_cases hck : c = k
    · simp [dget, List.find?_cons, hck]
    · have hkc : ¬ k = c := fun h => hck h.symm
      simp [dget, List.find?_cons, hck, hkc]
  | cons p d ih =>
    obtain ⟨a, b⟩ := p
    by_cases hac : a = c <;> simp [List.cons_append, dget_cons, hac, ih]

/-- Lookup after a Python-dict insertion. -/
theorem dget_dictUpsert (d : List (String × PyVal)) (k : String) (v : PyVal) (c : String) :
    dget (ForexExtractor.dictUpsert d k v) c = if c = k then some v else dget d c := by
  have hmem : (d.find? (fun p => p.1 == k)).isSome = dmem d k := by
    simp [dmem, dget, Option.isSome_map]
  unfold ForexExtractor.dictUpsert
  rw [hmem]
  by_cases hd : dmem d k
  · rw [if_pos hd, dget_upsert_map, hd]
    simp
  · rw [if_neg hd, dget_append_single]
    by_cases hck : c = k
    · subst hck
      have hnone : dget d c = Option.none := by
        cases h : dget d c with
        | none => rfl
        | some x => exact absurd (by simp [dmem, h]) hd
      simp [hnone]
    · cases h : dget d c <;> simp [hck, h]

/-- Lookup in the comprehension's fold, generalized over the accumulator. -/
theorem dget_dictComp_aux (rates : Dict) (c : String) :
    ∀ (ts : List String) (acc : List (String × PyVal)),
      dget (ts.foldl (fun acc currency =>
          match dget rates currency with
          | some v => ForexExtractor.dictUpsert acc currency v
          | Option.none => acc) acc) c =
        (if ts.contains c && dmem rates c then dget rates c else dget acc c) := by
  intro ts
  induction ts with
  | nil => intro acc; simp
  | cons t ts ih =>
    intro acc
    simp only [List.foldl_cons]
    rw [ih]
    cases hrt : dget rates t with
    | none =>
      by_cases hct : c = t
      · subst hct
        have hm : dmem rates c = false := by simp [dmem, hrt]
        simp [hm]
      · simp [List.contains_cons, hct]
    | some v =>
      rw [dget_dictUpsert]
      by_cases hct : c = t
      · subst hct
        have hm : dmem rates c = true := by simp [dmem, hrt]
        have hv : dget rates c = some v := hrt
        by_cases hts : ts.contains c <;> simp [List.contains_cons, hm, hv, hts]
      · simp [List.contains_cons, hct]

/-- C4 (confirmed): against a provider response with a `rates` mapping,
`ForexExtractor.extract_exchange_rates` returns a result whose `rates` entry
holds exactly the requested targets present in the provider's rate set (with
the provider's values), silently omitting absent targets; in particular,
requesting `["EUR", "XXX"]` against a response containing only `EUR` yields
exactly the one `EUR` entry. -/
theorem forex_extract_filters_targets (base : String) (targets : List String)
    (rates : Dict) (date : PyVal) :
    ForexExtractor.extract_exchange_rates
        (fun _ => some [("base", PyVal.str base), ("date", date), ("rates", PyVal.dict rates)])
        base targets =
      .ok (some { base := base, date := date,
                  rates := ForexExtractor.dictComp targets rates })
    ∧ (∀ c, dget (ForexExtractor.dictComp targets rates) c =
        if targets.contains c && dmem rates c then dget rates c else Option.none)
    ∧ (∀ c, dmem (ForexExtractor.dictComp targets rates) c =
        (targets.contains c && dmem rates c))
    ∧ ForexExtractor.extract_exchange_rates
        (fun _ => some [("base", PyVal.str "USD"), ("date", PyVal.str "2024-01-01"),
                        ("rates", PyVal.dict [("EUR", PyVal.num 1)])])
        "USD" ["EUR", "XXX"] =
      .ok (some { base := "USD", date := PyVal.str "2024-01-01",
                  rates := [("EUR", PyVal.num 1)] }) := by
  have hdg : ∀ c, dget (ForexExtractor.dictComp targets rates) c =
      if targets.contains c && dmem rates c then dget rates c else Option.none := by
    intro c
    have := dget_dictComp_aux rates c targets []
    simpa [ForexExtractor.dictComp, dget] using this
  refine ⟨rfl, hdg, fun c => ?_, rfl⟩
  rw [dmem, hdg c]
  by_cases h : targets.contains c && dmem rates c
  · rw [if_pos h, h]
    rcases Bool.and_eq_true _ _ |>.mp h with ⟨h1, h2⟩
    simpa [dmem] using h2
  · rw [if_neg h, Bool.eq_false_iff.mpr h]
    simp

/-- Unfolding: no symbols, no fetches. -/
theorem ems_nil (get : String → Option Dict) (delay : ℕ) :
    StocksExtractor.extract_multiple_stocks get [] delay = ([], []) := rfl

/-- Unfolding: a single symbol is fetched with no trailing sleep. -/
theorem ems_single (get : String → Option Dict) (s : String) (delay : ℕ) :
    StocksExtractor.extract_multiple_stocks get [s] delay =
      ((match StocksExtractor.extract_stock_price get s with
        | some x => [x]
        | Option.none => []), [.fetch s]) := rfl

/-- Unfolding: with at least two symbols, the first fetch is followed by one
sleep before the rest. -/
theorem ems_cons₂ (get : String → Option Dict) (s s2 : String) (r : List String) (delay : ℕ) :
    StocksExtractor.extract_multiple_stocks get (s :: s2 :: r) delay =
      ((match StocksExtractor.extract_stock_price get s with
        | some x => [x]
        | Option.none => []) ++ (StocksExtractor.extract_multiple_stocks get (s2 :: r) delay).1,
       .fetch s :: .sleep delay :: (StocksExtractor.extract_multiple_stocks get (s2 :: r) delay).2) := rfl

/-- A successful single-symbol extraction is tagged with the requested
symbol. -/
theorem esp_symbol (get : String → Option Dict) (s : String) (r : StockPayload)
    (h : StocksExtractor.extract_stock_price get s = some r) : r.symbol = s := by
  unfold StocksExtractor.extract_stock_price at h
  repeat' split at h
  all_goals cases h
  all_goals rfl

/-- The collected results of the multi-symbol extraction are the successful
single-symbol extractions, in order. -/
theorem ems_fst (get : String → Option Dict) (delay : ℕ) :
    ∀ symbols, (StocksExtractor.extract_multiple_stocks get symbols delay).1 =
      symbols.filterMap (StocksExtractor.extract_stock_price get) := by
  intro symbols
  induction symbols with
  | nil => rfl
  | cons s rest ih =>
    cases rest with
    | nil =>
      cases h : StocksExtractor.extract_stock_price get s <;>
        simp [ems_single, List.filterMap_cons, h]
    | cons s2 r =>
      cases h : StocksExtractor.extract_stock_price get s <;>
        simp [ems_cons₂, List.filterMap_cons, h, ih]

/-- The fetch events of the trace are exactly the requested symbols in
order. -/
theorem ems_trace_syms (get : String → Option Dict) (delay : ℕ) :
    ∀ symbols, (StocksExtractor.extract_multiple_stocks get symbols delay).2.filterMap
      TraceEv.fetchSym = symbols := by
  intro symbols
  induction symbols with
  | nil => rfl
  | cons s rest ih =>
    cases rest with
    | nil => simp [ems_single, List.filterMap_cons, TraceEv.fetchSym]
    | cons s2 r =>
      simp [ems_cons₂, List.filterMap_cons, TraceEv.fetchSym, ih]

/-- Every pause of the trace has the configured duration. -/
theorem ems_trace_sleeps (get : String → Option Dict) (delay : ℕ) :
    ∀ symbols, ((StocksExtractor.extract_multiple_stocks get symbols delay).2.all
      (fun e => match e with | .sleep d => d == delay | .fetch _ => true)) = true := by
  intro symbols
  induction symbols with
  | nil => rfl
  | cons s rest ih =>
    cases rest with
    | nil => simp [ems_single]
    | cons s2 r =>
      simp only [ems_cons₂, List.all_cons, ih]
      simp

/-- No two fetch events of the trace are adjacent. -/
theorem ems_trace_chain (get : String → Option Dict) (delay : ℕ) :
    ∀ symbols, List.Chain' (fun a b => ¬(a.isFetch = true ∧ b.isFetch = true))
      (StocksExtractor.extract_multiple_stocks get symbols delay).2 := by
  intro symbols
  induction symbols with
  | nil => simp [ems_nil]
  | cons s rest ih =>
    cases rest with
    | nil => simp [ems_single]
    | cons s2 r =>
      rw [ems_cons₂]
      rw [List.chain'_cons]
      refine ⟨by simp [TraceEv.isFetch], ?_⟩
      rw [List.chain'_cons']
      exact ⟨fun h _ => by simp [TraceEv.isFetch], ih⟩

/-- The trace never ends in a pause. -/
theorem ems_trace_last (get : String → Option Dict) (delay : ℕ) :
    ∀ symbols, (((StocksExtractor.extract_multiple_stocks get symbols delay).2.getLast?).all
      TraceEv.isFetch) = true := by
  intro symbols
  induction symbols with
  | nil => rfl
  | cons s rest ih =>
    cases rest with
    | nil => rfl
    | cons s2 r =>
      rw [ems_cons₂]
      have hne : (StocksExtractor.extract_multiple_stocks get (s2 :: r) delay).2 =
          .fetch s2 :: ((StocksExtractor.extract_multiple_stocks get (s2 :: r) delay).2.tail) := by
        cases r <;> rfl
      rw [hne] at ih ⊢
      rw [List.getLast?_cons_cons, List.getLast?_cons_cons]
      exact ih

/-- The symbols of the successful extractions form a subsequence of the
requested symbols. -/
theorem filterMap_esp_symbols_sublist (get : String → Option Dict) :
    ∀ symbols : List String,
      List.Sublist ((symbols.filterMap (StocksExtractor.extract_stock_price get)).map
        StockPayload.symbol) symbols := by
  intro symbols
  induction symbols with
  | nil => simp
  | cons s rest ih =>
    cases h : StocksExtractor.extract_stock_price get s with
    | none =>
      rw [List.filterMap_cons_none h]
      exact ih.cons s
    | some p =>
      rw [List.filterMap_cons_some h]
      rw [List.map_cons, esp_symbol get s p h]
      exact ih.cons₂ s

/-- C5 (confirmed): `extract_multiple_stocks` issues exactly one fetch per
requested symbol in order, never places two fetches adjacently (every
intervening pause has the configured `delay`, source default `12`), puts no
pause after the last fetch, and returns exactly the successfully extracted
quotes (a symbol whose fetch fails, lacks a `Global Quote` key, or has an
empty/falsy quote is skipped by `extract_stock_price`). -/
theorem extract_multiple_paced (get : String → Option Dict) (symbols : List String)
    (delay : ℕ) :
    ((StocksExtractor.extract_multiple_stocks get symbols delay).2.filterMap
        TraceEv.fetchSym = symbols)
    ∧ List.Chain' (fun a b => ¬(a.isFetch = true ∧ b.isFetch = true))
        (StocksExtractor.extract_multiple_stocks get symbols delay).2
    ∧ ((StocksExtractor.extract_multiple_stocks get symbols delay).2.all
        (fun e => match e with | .sleep d => d == delay | .fetch _ => true) = true)
    ∧ (((StocksExtractor.extract_multiple_stocks get symbols delay).2.getLast?).all
        TraceEv.isFetch = true)
    ∧ (StocksExtractor.extract_multiple_stocks get symbols delay).1 =
        symbols.filterMap (StocksExtractor.extract_stock_price get) :=
  ⟨ems_trace_syms get delay symbols, ems_trace_chain get delay symbols,
   ems_trace_sleeps get delay symbols, ems_trace_last get delay symbols,
   ems_fst get delay symbols⟩

/-- C9 (confirmed): the list returned by `extract_multiple_stocks` is an
order-preserving subsequence of the requested symbols — its symbol column is
a sublist of the input, its length is at most the number of requested
symbols — and each returned payload is the successful extraction for its own
tagged symbol. -/
theorem extract_results_subsequence (get : String → Option Dict) (symbols : List String)
    (delay : ℕ) :
    List.Sublist
      ((StocksExtractor.extract_multiple_stocks get symbols delay).1.map StockPayload.symbol)
      symbols
    ∧ (StocksExtractor.extract_multiple_stocks get symbols delay).1.length ≤ symbols.length
    ∧ ∀ r ∈ (StocksExtractor.extract_multiple_stocks get symbols delay).1,
        StocksExtractor.extract_stock_price get r.symbol = some r := by
  have hf := ems_fst get delay symbols
  refine ⟨?_, ?_, ?_⟩
  · rw [hf]
    exact filterMap_esp_symbols_sublist get symbols
  · have h := (filterMap_esp_symbols_sublist get symbols).length_le
    rw [List.length_map] at h
    rw [hf]
    exact h
  · intro r hr
    rw [hf] at hr
    rcases List.mem_filterMap.mp hr with ⟨a, ha, hfa⟩
    rwa [esp_symbol get a r hfa]

/-- C9 (witness): `extract_results_subsequence` applied to a two-symbol run
against an always-successful provider, instantiated at the first returned
payload. -/
theorem extract_results_subsequence_witness :
    StocksExtractor.extract_stock_price
        (fun _ => some [("Global Quote", PyVal.dict [("05. price", PyVal.num 1)])]) "A" =
      some { symbol := "A", data := PyVal.dict [("05. price", PyVal.num 1)] } := by
  have hmem : ({ symbol := "A", data := PyVal.dict [("05. price", PyVal.num 1)] } :
      StockPayload) ∈ (StocksExtractor.extract_multiple_stocks
        (fun _ => some [("Global Quote", PyVal.dict [("05. price", PyVal.num 1)])])
        ["A", "B"] 12).1 := by
    have e : (StocksExtractor.extract_multiple_stocks
        (fun _ => some [("Global Quote", PyVal.dict [("05. price", PyVal.num 1)])])
        ["A", "B"] 12).1 =
        [{ symbol := "A", data := PyVal.dict [("05. price", PyVal.num 1)] },
         { symbol := "B", data := PyVal.dict [("05. price", PyVal.num 1)] }] := rfl
    rw [e]
    exact List.mem_cons_self _ _
  exact (extract_results_subsequence
      (fun _ => some [("Global Quote", PyVal.dict [("05. price", PyVal.num 1)])])
      ["A", "B"] 12).2.2
    { symbol := "A", data := PyVal.dict [("05. price", PyVal.num 1)] } hmem

/-- Inversion for `.upper()`: success forces a string argument. -/
theorem pyUpper_ok {x : PyVal} {u : String} (h : pyUpper x = .ok u) :
    ∃ s, x = PyVal.str s ∧ u = pyUpperStr s := by
  cases x with
  | str s => exact ⟨s, rfl, by cases h; rfl⟩
  | num q => cases h
  | none => cases h
  | dict d => cases h

/-- A row built by the detailed branch carries the upper-casing of its
source symbol string. -/
theorem crypto_detailed_symbol (now : ℕ) (c : Dict) (r : CryptoRow)
    (hm : dmem c "market_data" = true)
    (h : CryptoTransformer.detailedRow now c = .ok r) :
    (CryptoTransformer.sourceSymbol c).map pyUpperStr = some r.symbol := by
  unfold CryptoTransformer.detailedRow at h
  simp only [bind, Except.bind] at h
  repeat' split at h
  all_goals cases h
  all_goals
    obtain ⟨s, hs, hv⟩ := pyUpper_ok (by assumption)
    simp [CryptoTransformer.sourceSymbol, hm, hs, hv]

/-- A row built by the simple branch carries the upper-casing of its source
symbol string (coin id fallback included). -/
theorem crypto_simple_symbol (now : ℕ) (c : Dict) (r : CryptoRow)
    (hm : dmem c "market_data" = false)
    (h : CryptoTransformer.simpleRow now c = .ok r) :
    (CryptoTransformer.sourceSymbol c).map pyUpperStr = some r.symbol := by
  unfold CryptoTransformer.simpleRow at h
  simp only [bind, Except.bind] at h
  repeat' split at h
  all_goals cases h
  all_goals
    obtain ⟨s, hs, hv⟩ := pyUpper_ok (by assumption)
    simp [CryptoTransformer.sourceSymbol, hm, hs, hv]

/-- Unfolding of the crypto per-record loop on a cons. -/
theorem crypto_loop_cons (now : ℕ) (c : Dict) (rest : List Dict) :
    CryptoTransformer.loop now (c :: rest) =
      (match (if dmem c "market_data" then CryptoTransformer.detailedRow now c
              else CryptoTransformer.simpleRow now c) with
       | .ok row => do
          let rows ← CryptoTransformer.loop now rest
          .ok (row :: rows)
       | .error e =>
          if CryptoTransformer.caughtC e then CryptoTransformer.loop now rest
          else .error e) := rfl

/-- Every row the crypto loop produces descends from some input record and
carries that record's upper-cased symbol. -/
theorem crypto_loop_symbols (now : ℕ) :
    ∀ (cs : List Dict) (rs : List CryptoRow),
      CryptoTransformer.loop now cs = .ok rs →
      ∀ r ∈ rs, ∃ c ∈ cs,
        (CryptoTransformer.sourceSymbol c).map pyUpperStr = some r.symbol := by
  intro cs
  induction cs with
  | nil =>
    intro rs h r hr
    cases h
    cases hr
  | cons c rest ih =>
    intro rs h r hr
    rw [crypto_loop_cons] at h
    by_cases hm : dmem c "market_data" = true
    · rw [if_pos hm] at h
      cases hrow : CryptoTransformer.detailedRow now c with
      | ok row =>
        simp only [hrow, bind, Except.bind] at h
        cases hloop : CryptoTransformer.loop now rest with
        | error e =>
          simp only [hloop] at h
          cases h
        | ok rows =>
          simp only [hloop] at h
          cases h
          cases hr with
          | head =>
            exact ⟨c, List.mem_cons_self c rest,
              crypto_detailed_symbol now c r hm hrow⟩
          | tail _ hr' =>
            rcases ih rows hloop r hr' with ⟨c', hc', hsym⟩
            exact ⟨c', List.mem_cons_of_mem c hc', hsym⟩
      | error e =>
        simp only [hrow] at h
        by_cases hcaught : CryptoTransformer.caughtC e = true
        · rw [if_pos hcaught] at h
          rcases ih rs h r hr with ⟨c', hc', hsym⟩
          exact ⟨c', List.mem_cons_of_mem c hc', hsym⟩
        · rw [if_neg hcaught] at h
          cases h
    · rw [if_neg hm] at h
      have hm' : dmem c "market_data" = false := by
        cases hb : dmem c "market_data"
        · rfl
        · exact absurd hb hm
      cases hrow : CryptoTransformer.simpleRow now c with
      | ok row =>
        simp only [hrow, bind, Except.bind] at h
        cases hloop : CryptoTransformer.loop now rest with
        | error e =>
          simp only [hloop] at h
          cases h
        | ok rows =>
          simp only [hloop] at h
          cases h
          cases hr with
          | head =>
            exact ⟨c, List.mem_cons_self c rest,
              crypto_simple_symbol now c r hm' hrow⟩
          | tail _ hr' =>
            rcases ih rows hloop r hr' with ⟨c', hc', hsym⟩
            exact ⟨c', List.mem_cons_of_mem c hc', hsym⟩
      | error e =>
        simp only [hrow] at h
        by_cases hcaught : CryptoTransformer.caughtC e = true
        · rw [if_pos hcaught] at h
          rcases ih rs h r hr with ⟨c', hc', hsym⟩
          exact ⟨c', List.mem_cons_of_mem c hc', hsym⟩
        · rw [if_neg hcaught] at h
          cases h

/-- C10 (amended): every row of a successful `CryptoTransformer.transform`
has a symbol equal to the upper-casing (`pyUpperStr`) of its source record's
symbol — the record's `symbol` value when present, otherwise the coin id in
the simple branch but the empty string in the detailed branch (see
`CryptoTransformer.sourceSymbol`). -/
theorem crypto_symbols_uppercased (now : ℕ) (cs : List Dict) (rows : List CryptoRow)
    (h : CryptoTransformer.transform now (some cs) = .ok rows) :
    ∀ r ∈ rows, ∃ c ∈ cs,
      (CryptoTransformer.sourceSymbol c).map pyUpperStr = some r.symbol := by
  intro r hr
  cases cs with
  | nil => cases h; cases hr
  | cons c rest =>
    have ht : CryptoTransformer.transform now (some (c :: rest)) =
        (CryptoTransformer.loop now (c :: rest)).bind (fun all =>
          if all.isEmpty then Except.ok [] else Except.ok (CryptoTransformer.quality all)) := rfl
    rw [ht] at h
    cases hloop : CryptoTransformer.loop now (c :: rest) with
    | error e =>
      simp only [hloop, Except.bind] at h
      cases h
    | ok all =>
      simp only [hloop, Except.bind] at h
      by_cases he : all.isEmpty = true
      · rw [if_pos he] at h
        cases h
        cases hr
      · rw [if_neg he] at h
        cases h
        exact crypto_loop_symbols now (c :: rest) all hloop r hr

/-- C10 (counterexample): the claim says the fallback when no `symbol` key is
present is the upper-cased coin id; in the detailed branch the fallback is
`crypto.get('symbol', '')`, so a `market_data` record with only an `id` gets
the empty-string symbol, not `"BITCOIN"`. -/
theorem crypto_detailed_symbol_ignores_coin_id :
    CryptoTransformer.transform 0
        (some [[("id", PyVal.str "bitcoin"),
                ("market_data", PyVal.dict
                  [("current_price", PyVal.dict [("usd", PyVal.num 5)]),
                   ("market_cap", PyVal.dict []),
                   ("total_volume", PyVal.dict [])])]]) =
      .ok [{ symbol := "", name := PyVal.none, current_price := 5, market_cap := 0,
             total_volume := 0, price_change_24h := 0, timestamp := 0, extracted_at := 0 }]
    ∧ ("" : String) ≠ pyUpperStr "bitcoin" :=
  ⟨rfl, by decide⟩

/-- C10 (witness): `crypto_symbols_uppercased` applied to the one-record
input `{'symbol': 'btc'}` and its output row. -/
theorem crypto_symbols_uppercased_witness :
    ∃ c ∈ [[("symbol", PyVal.str "btc")]],
      (CryptoTransformer.sourceSymbol c).map pyUpperStr = some "BTC" := by
  have h := crypto_symbols_uppercased 0 [[("symbol", PyVal.str "btc")]]
      [{ symbol := "BTC", name := PyVal.str "", current_price := 0, market_cap := 0,
         total_volume := 0, price_change_24h := 0, timestamp := 0, extracted_at := 0 }] rfl
  exact h { symbol := "BTC", name := PyVal.str "", current_price := 0, market_cap := 0,
            total_volume := 0, price_change_24h := 0, timestamp := 0, extracted_at := 0 }
    (List.mem_cons_self _ _)

/-- `Except.map` distributes over `bind`. -/
theorem except_map_bind {ε α β γ : Type} (g : β → γ) (e : Except ε α)
    (f : α → Except ε β) :
    Except.map g (e >>= f) = e >>= fun a => Except.map g (f a) := by
  cases e <;> rfl

/-- The stocks row builder depends on the clock only through the
`timestamp`/`extracted_at` fields. -/
theorem tryBody_retime (t : ℕ) (symbol quote : PyVal) :
    StocksTransformer.tryBody t symbol quote =
      (StocksTransformer.tryBody 0 symbol quote).map (StockRawRow.retime t) := by
  unfold StocksTransformer.tryBody
  simp only [except_map_bind]
  rfl

/-- The detailed crypto row builder depends on the clock only through the
time fields. -/
theorem detailedRow_retime (t : ℕ) (c : Dict) :
    CryptoTransformer.detailedRow t c =
      (CryptoTransformer.detailedRow 0 c).map (CryptoRow.retime t) := by
  unfold CryptoTransformer.detailedRow
  simp only [except_map_bind]
  rfl

/-- The simple crypto row builder depends on the clock only through the
time fields. -/
theorem simpleRow_retime (t : ℕ) (c : Dict) :
    CryptoTransformer.simpleRow t c =
      (CryptoTransformer.simpleRow 0 c).map (CryptoRow.retime t) := by
  unfold CryptoTransformer.simpleRow
  simp only [except_map_bind]
  rfl

/-- The forex rate row builder depends on the clock only through the time
fields. -/
theorem rateRow_retime (t : ℕ) (base rate_date : PyVal) (entry : String × PyVal) :
    ForexTransformer.rateRow t base rate_date entry =
      (ForexTransformer.rateRow 0 base rate_date entry).map (ForexRow.retime t) := by
  unfold ForexTransformer.rateRow
  cases pyFloat entry.2 <;> rfl

/-- Unfolding of the stocks per-record loop on a cons. -/
theorem stocks_loop_cons (now : ℕ) (stock : Dict) (rest : List Dict) :
    StocksTransformer.loop now (stock :: rest) =
      (pyIndex (.dict stock) "symbol").bind (fun symbol =>
        (pyIndex (.dict stock) "data").bind (fun data =>
          match StocksTransformer.tryBody now symbol data with
          | .ok row => (StocksTransformer.loop now rest).bind (fun rows => .ok (row :: rows))
          | .error e =>
            if StocksTransformer.caughtS e then StocksTransformer.loop now rest
            else .error e)) := rfl

/-- The stocks loop at clock `t` is the loop at clock `0` with all rows
retimed. -/
theorem stocks_loop_retime (t : ℕ) :
    ∀ xs : List Dict,
      StocksTransformer.loop t xs =
        (StocksTransformer.loop 0 xs).map (List.map (StockRawRow.retime t)) := by
  intro xs
  induction xs with
  | nil => rfl
  | cons stock rest ih =>
    rw [stocks_loop_cons, stocks_loop_cons]
    cases h1 : pyIndex (.dict stock) "symbol" with
    | error e => rfl
    | ok symbol =>
      simp only [Except.bind]
      cases h2 : pyIndex (.dict stock) "data" with
      | error e => rfl
      | ok data =>
        simp only [Except.bind]
        rw [tryBody_retime t]
        cases h3 : StocksTransformer.tryBody 0 symbol data with
        | error e =>
          simp only [Except.map]
          by_cases hc : StocksTransformer.caughtS e = true
          · rw [if_pos hc, if_pos hc, ih]
            cases StocksTransformer.loop 0 rest <;> rfl
          · rw [if_neg hc, if_neg hc]
        | ok row =>
          simp only [Except.map]
          rw [ih]
          cases h4 : StocksTransformer.loop 0 rest <;> rfl

/-- The stocks data-quality pass commutes with retiming. -/
theorem stocks_quality_retime (t : ℕ) (rows : List StockRawRow) :
    StocksTransformer.quality (rows.map (StockRawRow.retime t)) =
      (StocksTransformer.quality rows).map (StockRow.retime t) := by
  unfold StocksTransformer.quality
  rw [List.filter_map, List.map_map, List.map_map]
  rfl

/-- `StocksTransformer.transform` at clock `t` is the transform at clock `0`
with all rows retimed. -/
theorem stocks_transform_retime (t : ℕ) (xs : List Dict) :
    StocksTransformer.transform t xs =
      (StocksTransformer.transform 0 xs).map (List.map (StockRow.retime t)) := by
  have ht : ∀ (u : ℕ), StocksTransformer.transform u xs =
      (StocksTransformer.loop u xs).bind (fun all =>
        if all.isEmpty then Except.ok [] else Except.ok (StocksTransformer.quality all)) :=
    fun u => rfl
  rw [ht, ht, stocks_loop_retime t]
  cases h : StocksTransformer.loop 0 xs with
  | error e => rfl
  | ok rows =>
    simp only [Except.map, Except.bind]
    have hie : (rows.map (StockRawRow.retime t)).isEmpty = rows.isEmpty := by
      cases rows <;> rfl
    rw [hie]
    by_cases he : rows.isEmpty = true
    · rw [if_pos he, if_pos he]
      rfl
    · rw [if_neg he, if_neg he, stocks_quality_retime]

/-- The crypto loop at clock `t` is the loop at clock `0` with all rows
retimed. -/
theorem crypto_loop_retime (t : ℕ) :
    ∀ cs : List Dict,
      CryptoTransformer.loop t cs =
        (CryptoTransformer.loop 0 cs).map (List.map (CryptoRow.retime t)) := by
  intro cs
  induction cs with
  | nil => rfl
  | cons c rest ih =>
    rw [crypto_loop_cons, crypto_loop_cons]
    by_cases hm : dmem c "market_data" = true
    · rw [if_pos hm, if_pos hm, detailedRow_retime t]
      cases h : CryptoTransformer.detailedRow 0 c with
      | error e =>
        simp only [Except.map]
        by_cases hc : CryptoTransformer.caughtC e = true
        · rw [if_pos hc, if_pos hc, ih]
          cases CryptoTransformer.loop 0 rest <;> rfl
        · rw [if_neg hc, if_neg hc]
      | ok row =>
        simp only [Except.map]
        rw [ih]
        cases CryptoTransformer.loop 0 rest <;> rfl
    · rw [if_neg hm, if_neg hm, simpleRow_retime t]
      cases h : CryptoTransformer.simpleRow 0 c with
      | error e =>
        simp only [Except.map]
        by_cases hc : CryptoTransformer.caughtC e = true
        · rw [if_pos hc, if_pos hc, ih]
          cases CryptoTransformer.loop 0 rest <;> rfl
        · rw [if_neg hc, if_neg hc]
      | ok row =>
        simp only [Except.map]
        rw [ih]
        cases CryptoTransformer.loop 0 rest <;> rfl

/-- `CryptoTransformer.transform` at clock `t` is the transform at clock `0`
with all rows retimed. -/
theorem crypto_transform_retime (t : ℕ) (cs : Option (List Dict)) :
    CryptoTransformer.transform t cs =
      (CryptoTransformer.transform 0 cs).map (List.map (CryptoRow.retime t)) := by
  match cs with
  | Option.none => rfl
  | some [] => rfl
  | some (c :: rest) =>
    have ht : ∀ u, CryptoTransformer.transform u (some (c :: rest)) =
        (CryptoTransformer.loop u (c :: rest)).bind (fun all =>
          if all.isEmpty then Except.ok []
          else Except.ok (CryptoTransformer.quality all)) := fun u => rfl
    rw [ht, ht, crypto_loop_retime t]
    cases h : CryptoTransformer.loop 0 (c :: rest) with
    | error e => rfl
    | ok rows =>
      simp only [Except.map, Except.bind]
      have hie : (rows.map (CryptoRow.retime t)).isEmpty = rows.isEmpty := by
        cases rows <;> rfl
      rw [hie]
      by_cases he : rows.isEmpty = true
      · rw [if_pos he, if_pos he]
        rfl
      · rw [if_neg he, if_neg he]
        rfl

/-- The forex data-quality pass commutes with retiming. -/
theorem forex_quality_retime (t : ℕ) (rows : List ForexRow) :
    ForexTransformer.quality (rows.map (ForexRow.retime t)) =
      (ForexTransformer.quality rows).map (ForexRow.retime t) := by
  unfold ForexTransformer.quality
  rw [List.filter_map]
  rfl

/-- `ForexTransformer.transform` at clock `t` is the transform at clock `0`
with all rows retimed. -/
theorem forex_transform_retime (t : ℕ) (fd : Option Dict) :
    ForexTransformer.transform t fd =
      (ForexTransformer.transform 0 fd).map (List.map (ForexRow.retime t)) := by
  match fd with
  | Option.none => rfl
  | some d =>
    simp only [ForexTransformer.transform]
    by_cases hg : (!pyTruthy (.dict d) || !dmem d "rates") = true
    · rw [if_pos hg, if_pos hg]
      rfl
    · rw [if_neg hg, if_neg hg]
      simp only [bind, Except.bind]
      cases hb : pyIndex (.dict d) "base" with
      | error e => rfl
      | ok base =>
        cases hv : pyIndex (.dict d) "rates" with
        | error e => rfl
        | ok ratesV =>
          cases ratesV with
          | str s => rfl
          | num q => rfl
          | none => rfl
          | dict rs =>
            simp only []
            have hfm : rs.filterMap (ForexTransformer.rateRow t base (dgetD d "date" .none)) =
                (rs.filterMap (ForexTransformer.rateRow 0 base (dgetD d "date" .none))).map
                  (ForexRow.retime t) := by
              have hfe : ForexTransformer.rateRow t base (dgetD d "date" .none) =
                  fun e => (ForexTransformer.rateRow 0 base (dgetD d "date" .none) e).map
                    (ForexRow.retime t) :=
                funext (rateRow_retime t base (dgetD d "date" .none))
              rw [hfe, List.map_filterMap]
            rw [hfm]
            have hie : ((rs.filterMap (ForexTransformer.rateRow 0 base
                (dgetD d "date" .none))).map (ForexRow.retime t)).isEmpty =
                (rs.filterMap (ForexTransformer.rateRow 0 base (dgetD d "date" .none))).isEmpty := by
              cases rs.filterMap (ForexTransformer.rateRow 0 base (dgetD d "date" .none)) <;> rfl
            rw [hie]
            by_cases he : (rs.filterMap (ForexTransformer.rateRow 0 base
                (dgetD d "date" .none))).isEmpty = true
            · rw [if_pos he, if_pos he]
              rfl
            · rw [if_neg he, if_neg he, forex_quality_retime]
              rfl

/-- C8 (amended): each transformer is a function of its input records and
the single clock reading used for the `timestamp`/`extracted_at` fields —
two applications at different clock readings agree on everything except
those two fields (erasing them with `retime 0` yields identical frames). -/
theorem transforms_deterministic_modulo_clock (t1 t2 : ℕ) (xs : List Dict)
    (cs : Option (List Dict)) (fd : Option Dict) :
    (StocksTransformer.transform t1 xs).map (List.map (StockRow.retime 0)) =
      (StocksTransformer.transform t2 xs).map (List.map (StockRow.retime 0))
    ∧ (CryptoTransformer.transform t1 cs).map (List.map (CryptoRow.retime 0)) =
      (CryptoTransformer.transform t2 cs).map (List.map (CryptoRow.retime 0))
    ∧ (ForexTransformer.transform t1 fd).map (List.map (ForexRow.retime 0)) =
      (ForexTransformer.transform t2 fd).map (List.map (ForexRow.retime 0)) := by
  refine ⟨?_, ?_, ?_⟩
  · rw [stocks_transform_retime t1, stocks_transform_retime t2]
    cases StocksTransformer.transform 0 xs with
    | error e => rfl
    | ok rows =>
      simp only [Except.map, List.map_map]
      rw [show (StockRow.retime 0 ∘ StockRow.retime t1) =
        (StockRow.retime 0 ∘ StockRow.retime t2) from funext fun r => rfl]
  · rw [crypto_transform_retime t1, crypto_transform_retime t2]
    cases CryptoTransformer.transform 0 cs with
    | error e => rfl
    | ok rows =>
      simp only [Except.map, List.map_map]
      rw [show (CryptoRow.retime 0 ∘ CryptoRow.retime t1) =
        (CryptoRow.retime 0 ∘ CryptoRow.retime t2) from funext fun r => rfl]
  · rw [forex_transform_retime t1, forex_transform_retime t2]
    cases ForexTransformer.transform 0 fd with
    | error e => rfl
    | ok rows =>
      simp only [Except.map, List.map_map]
      rw [show (ForexRow.retime 0 ∘ ForexRow.retime t1) =
        (ForexRow.retime 0 ∘ ForexRow.retime t2) from funext fun r => rfl]

/-- C8 (counterexample): the claim says two applications of a transformer to
the same raw records produce identical frames with no dependence on external
state; but the row dicts embed `datetime.now()`, so the same one-record
input transformed at clock readings `0` and `1` yields different frames
(differing timestamps). -/
theorem stocks_transform_clock_dependent :
    StocksTransformer.transform 0 [[("symbol", PyVal.str "A"), ("data", PyVal.dict [])]] ≠
      StocksTransformer.transform 1 [[("symbol", PyVal.str "A"), ("data", PyVal.dict [])]] := by
  intro h
  have h0 : StocksTransformer.transform 0
      [[("symbol", PyVal.str "A"), ("data", PyVal.dict [])]] =
      .ok [{ symbol := PyVal.str "A", price := 0, «open» := 0, high := 0, low := 0,
             volume := 0, latest_trading_day := PyVal.none, previous_close := 0,
             change := 0, change_percent := 0, timestamp := 0, extracted_at := 0 }] := rfl
  have h1 : StocksTransformer.transform 1
      [[("symbol", PyVal.str "A"), ("data", PyVal.dict [])]] =
      .ok [{ symbol := PyVal.str "A", price := 0, «open» := 0, high := 0, low := 0,
             volume := 0, latest_trading_day := PyVal.none, previous_close := 0,
             change := 0, change_percent := 0, timestamp := 1, extracted_at := 1 }] := rfl
  rw [h0, h1] at h
  simp at h
